import Mathlib

/-!
Mini Store Analytics Dashboard: a shallow embedding of `src/script.js`.

Modelling conventions.

* A JavaScript number is an exact rational (`ℚ`).  The binary rounding that
  IEEE-754 doubles apply to every single `+` and `*` is not part of this
  model; `NaN` and the infinities do not exist in it.
* `Number(x.toFixed(2))` is `toFixed2 x`: the nearest multiple of `1/100`,
  a tie going to the larger magnitude, as ECMAScript prescribes.
* The object `totalsByCategory` is used by the script as a dictionary.  It is
  an insertion-ordered list of `(key, value)` pairs; reading a key consults the
  entries the script itself has written (own properties), and writing an
  existing key keeps its position.  Category names that collide with a name
  every object inherits from `Object.prototype` (`constructor`, `__proto__`,
  ...) are not given their special JavaScript behaviour.
* The globals `config` and `products` the functions read are explicit
  arguments.
* A string is a `String`.  `trim` and `includes` are translated in full.  The
  Unicode case table behind `toLowerCase` is not available here, so
  `filterCards` takes the lower-casing function as its first argument;
  `asciiToLowerCase` is the instance used on the sample data, whose strings
  are ASCII.
* Console output is the list of the lines logged.  `Number` to string
  conversion of the unit count is an argument of `renderReport`.
* `Object.entries` enumerates the own keys of an object in the order
  ECMAScript prescribes: array-index keys first, by ascending numeric value,
  then every other key in order of creation.
* The in-place mutation of the accumulator inside `reduce` is explicit state
  passing: the accumulator goes in and the updated accumulator comes out.
-/

namespace MiniStore

/-! ## Data model -/

/-- The `config` object (lines 22-27). -/
structure Config where
  currency : String
  showOutOfStock : Bool
  highlightCategory : String
  taxRate : ℚ
  deriving DecidableEq

/-- An element of `products` (lines 29-36). -/
structure Product where
  id : Int
  name : String
  category : String
  price : ℚ
  inStock : Bool
  deriving DecidableEq

/-- A line item `{ productId, qty }` of an order. -/
structure LineItem where
  productId : Int
  qty : ℚ
  deriving DecidableEq

/-- An element of `orders` (lines 38-44). -/
structure Order where
  id : String
  items : List LineItem
  createdAt : String
  deriving DecidableEq

/-- The object returned by the arrow function of `mapToCards` (line 72). -/
structure Card where
  id : Int
  title : String
  priceLabel : String
  badge : String
  isHighlighted : Bool
  category : String
  inStock : Bool
  deriving DecidableEq

/-- The accumulator `base` of `computeTotals` (line 104). -/
structure Acc where
  revenue : ℚ
  units : ℚ
  totalsByCategory : List (String × ℚ)
  deriving DecidableEq

/-- The object `{ ...out, revenueWithTax }` returned by `computeTotals`. -/
structure Totals where
  revenue : ℚ
  units : ℚ
  totalsByCategory : List (String × ℚ)
  revenueWithTax : ℚ
  deriving DecidableEq

/-! ## Sample data (lines 22-44) -/

def config : Config :=
  { currency := "€", showOutOfStock := false, highlightCategory := "Electronics",
    taxRate := 2 / 10 }

def products : List Product :=
  [ { id := 1, name := "Laptop Pro 15", category := "Electronics", price := 149999 / 100, inStock := true },
    { id := 2, name := "Wireless Mouse", category := "Electronics", price := 245 / 10, inStock := false },
    { id := 3, name := "Mechanical Keyboard", category := "Electronics", price := 79, inStock := true },
    { id := 4, name := "Water Bottle", category := "Lifestyle", price := 12, inStock := true },
    { id := 5, name := "Notebook", category := "Stationery", price := 45 / 10, inStock := true },
    { id := 6, name := "Pencil", category := "Stationery", price := 12 / 10, inStock := true } ]

def orderA100 : Order :=
  { id := "A100", items := [⟨1, 1⟩, ⟨3, 1⟩], createdAt := "2025-08-10" }

def orderA101 : Order :=
  { id := "A101", items := [⟨5, 3⟩, ⟨6, 5⟩], createdAt := "2025-08-11" }

def orderA102 : Order :=
  { id := "A102", items := [⟨3, 1⟩, ⟨4, 2⟩], createdAt := "2025-08-12" }

def orderA103 : Order :=
  { id := "A103", items := [⟨2, 1⟩], createdAt := "2025-08-12" }

def orders : List Order := [orderA100, orderA101, orderA102, orderA103]

/-! ## Utilities -/

/-- The integer `n` of `Number.prototype.toFixed(2)` for `x ≥ 0`: the integer
for which `n / 100 - x` is closest to zero, the larger one on a tie. -/
def nearestCents (x : ℚ) : Int := ⌊x * 100 + 1 / 2⌋

/-- The value `Number(x.toFixed(2))`: a negative `x` is rounded on its
magnitude and the sign put back. -/
def toFixed2 (x : ℚ) : ℚ :=
  if x < 0 then -((nearestCents (-x) : ℚ) / 100) else (nearestCents x : ℚ) / 100

/-- The decimal digits of a natural number, at least `3` of them (the padding
`toFixed(2)` applies so that one digit stands before the point). -/
def centDigits (n : Nat) : List Char :=
  let ds := Nat.toDigits 10 n
  List.replicate (3 - ds.length) '0' ++ ds

/-- The string `x.toFixed(2)`, in fixed notation (JavaScript switches to
exponent notation from `1e21` on, which is outside this model). -/
def toFixed2Str (x : ℚ) : String :=
  let s := if x < 0 then "-" else ""
  let n := (nearestCents (if x < 0 then -x else x)).toNat
  let ds := centDigits n
  s ++ String.mk (ds.take (ds.length - 2)) ++ "." ++ String.mk (ds.drop (ds.length - 2))

/-- Translation of `fmtMoney` (line 47). -/
def fmtMoney (n : ℚ) (currency : String) : String := currency ++ toFixed2Str n

/-! ## Step 2: `mapToCards` (lines 67-74) -/

/-- The arrow function passed to `map` in `mapToCards`. -/
def toCard (cfg : Config) (p : Product) : Card :=
  let priceLabel := fmtMoney p.price cfg.currency
  let badge := if p.inStock then "In Stock" else "Out of Stock"
  let isHighlighted := decide (p.category = cfg.highlightCategory)
  { id := p.id, title := p.name, priceLabel := priceLabel, badge := badge,
    isHighlighted := isHighlighted, category := p.category, inStock := p.inStock }

/-- Translation of `mapToCards`. -/
def mapToCards (cfg : Config) (ps : List Product) : List Card := ps.map (toCard cfg)

/-! ## Step 4: `computeTotals` (lines 96-128) -/

/-- Translation of `byId` (line 96): the first product with the given id. -/
def byId (ps : List Product) (id : Int) : Option Product := ps.find? (fun p => decide (p.id = id))

/-- Reading `obj[key]`: the value of the first entry with that key. -/
def getKey (obj : List (String × ℚ)) (key : String) : Option ℚ :=
  match obj with
  | [] => none
  | (k, v) :: rest => if k = key then some v else getKey rest key

/-- Writing `obj[key] = value`: an existing entry is overwritten in place, a
new one is appended. -/
def setKey (obj : List (String × ℚ)) (key : String) (value : ℚ) : List (String × ℚ) :=
  match obj with
  | [] => [(key, value)]
  | (k, v) :: rest => if k = key then (k, value) :: rest else (k, v) :: setKey rest key value

/-- The expression `x || 0` for a property read: `undefined` and `0` are the
falsy cases. -/
def orZero (x : Option ℚ) : ℚ :=
  match x with
  | none => 0
  | some v => if v = 0 then 0 else v

/-- The inner reducer (lines 108-118): one line item folded into the accumulator. -/
def addItem (ps : List Product) (acc2 : Acc) (item : LineItem) : Acc :=
  match byId ps item.productId with
  | none => acc2
  | some product =>
    let line := product.price * item.qty
    { revenue := acc2.revenue + line,
      units := acc2.units + item.qty,
      totalsByCategory :=
        setKey acc2.totalsByCategory product.category
          (orZero (getKey acc2.totalsByCategory product.category) + line) }

/-- The outer reducer (lines 106-119): one order folded into the accumulator. -/
def addOrder (ps : List Product) (acc : Acc) (order : Order) : Acc :=
  order.items.foldl (addItem ps) acc

/-- The accumulator `base` (line 104). -/
def base : Acc := { revenue := 0, units := 0, totalsByCategory := [] }

/-- The value `out` before rounding (lines 106-119). -/
def reduceOrders (ps : List Product) (os : List Order) : Acc := os.foldl (addOrder ps) base

/-- Translation of `computeTotals` (lines 103-128). -/
def computeTotals (cfg : Config) (ps : List Product) (os : List Order) : Totals :=
  let out := reduceOrders ps os
  let revenue := toFixed2 out.revenue
  let totalsByCategory := out.totalsByCategory.map (fun e => (e.1, toFixed2 e.2))
  let revenueWithTax := toFixed2 (revenue * (1 + cfg.taxRate))
  { revenue := revenue, units := out.units, totalsByCategory := totalsByCategory,
    revenueWithTax := revenueWithTax }

/-! ## Step 3: `filterCards` (lines 82-87) -/

/-- The code points `String.prototype.trim` removes: the ECMAScript
`WhiteSpace` and `LineTerminator` productions. -/
def isWhiteSpace (c : Char) : Bool :=
  decide (c.val.toNat ∈ [0x9, 0xA, 0xB, 0xC, 0xD, 0x20, 0xA0, 0x1680, 0x2028, 0x2029, 0x202F,
    0x205F, 0x3000, 0xFEFF]) || (decide (0x2000 ≤ c.val.toNat) && decide (c.val.toNat ≤ 0x200A))

/-- Translation of `String.prototype.trim`. -/
def trim (s : String) : String :=
  String.mk ((s.data.dropWhile isWhiteSpace).reverse.dropWhile isWhiteSpace).reverse

/-- Translation of `String.prototype.includes`: `q` occurs in `s` as a
contiguous run of characters. -/
def includes (s q : String) : Bool := decide (q.data <:+: s.data)

/-- The lower-casing of ASCII strings: `A`-`Z` go to `a`-`z`, every other
character stays. -/
def asciiToLowerCase (s : String) : String := String.mk (s.data.map Char.toLower)

/-- The second argument of `filterCards`; a property that is absent
(`undefined`) is `none`. -/
structure FilterOptions where
  query : Option String
  showOutOfStock : Option Bool
  deriving DecidableEq

/-- The first `filter` callback of `filterCards` (line 85). -/
def stockPredicate (showOutOfStock : Bool) (c : Card) : Bool :=
  if showOutOfStock then true else c.inStock

/-- The second `filter` callback of `filterCards` (line 86); the string `q`
is truthy when it is not empty. -/
def queryPredicate (toLowerCase : String → String) (q : String) (c : Card) : Bool :=
  if q ≠ "" then includes (toLowerCase c.title) q || includes (toLowerCase c.category) q
  else true

/-- Translation of `filterCards`; `options = none` is the call without a
second argument, and the destructuring defaults fill in what is absent. -/
def filterCards (toLowerCase : String → String) (cards : List Card)
    (options : Option FilterOptions) : List Card :=
  let o := options.getD { query := none, showOutOfStock := none }
  let query := o.query.getD ""
  let showOutOfStock := o.showOutOfStock.getD false
  let q := toLowerCase (trim query)
  (cards.filter (stockPredicate showOutOfStock)).filter (queryPredicate toLowerCase q)

/-! ## Step 5: `renderReport` (lines 139-155) -/

/-- A line item together with the product `byId` finds for it, if any. -/
def resolve (ps : List Product) (item : LineItem) : Option (Product × LineItem) :=
  (byId ps item.productId).map (fun p => (p, item))

/-- All line items of all orders, orders in list order, items in declared order. -/
def allItems (os : List Order) : List LineItem := os.flatMap (fun o => o.items)

/-- The resolved line items, in processing order, each with its product. -/
def resolvedLines (ps : List Product) (os : List Order) : List (Product × LineItem) :=
  (allItems os).filterMap (resolve ps)

/-- The line value `price × qty` of a resolved line item. -/
def lineValue (x : Product × LineItem) : ℚ := x.1.price * x.2.qty

/-- The effect of the inner reducer on a line item that resolved (lines 112-117). -/
def addLine (acc2 : Acc) (x : Product × LineItem) : Acc :=
  { revenue := acc2.revenue + lineValue x,
    units := acc2.units + x.2.qty,
    totalsByCategory :=
      setKey acc2.totalsByCategory x.1.category
        (orZero (getKey acc2.totalsByCategory x.1.category) + lineValue x) }

/-- The product with its `inStock` flag inverted. -/
def invertStock (p : Product) : Product := { p with inStock := !p.inStock }

/-- Two products that agree on everything except possibly the `inStock` flag. -/
def sameButStock (p q : Product) : Prop :=
  p.id = q.id ∧ p.name = q.name ∧ p.category = q.category ∧ p.price = q.price

/-- The keeping condition of `filterCards` in the words of the specification:
the stock condition and the query condition, for `q` the trimmed and
lower-cased query. -/
def keptBySpec (toLowerCase : String → String) (query : String) (showOutOfStock : Bool)
    (c : Card) : Bool :=
  (showOutOfStock || c.inStock) &&
    (decide (toLowerCase (trim query) = "") ||
      includes (toLowerCase c.title) (toLowerCase (trim query)) ||
      includes (toLowerCase c.category) (toLowerCase (trim query)))

/-- A card used to exercise `filterCards` on a small input. -/
def penCard : Card :=
  { id := 6, title := "Pencil", priceLabel := "€1.20", badge := "In Stock",
    isHighlighted := false, category := "Stationery", inStock := true }

/-- An out-of-stock card used to exercise `filterCards` on a small input. -/
def mouseCard : Card :=
  { id := 2, title := "Wireless Mouse", priceLabel := "€24.50", badge := "Out of Stock",
    isHighlighted := true, category := "Electronics", inStock := false }

/-- An exact multiple of `0.01`. -/
def isCents (x : ℚ) : Prop := ∃ n : Int, x = (n : ℚ) / 100

theorem nearestCents_eq_of (x : ℚ) (n : Int) (h1 : (n : ℚ) ≤ x * 100 + 1 / 2)
    (h2 : x * 100 + 1 / 2 < n + 1) : nearestCents x = n := by
  unfold nearestCents
  exact Int.floor_eq_iff.mpr ⟨h1, h2⟩

theorem toFixed2_eq_of (x : ℚ) (n : Int) (h0 : 0 ≤ x) (h1 : (n : ℚ) ≤ x * 100 + 1 / 2)
    (h2 : x * 100 + 1 / 2 < n + 1) : toFixed2 x = (n : ℚ) / 100 := by
  unfold toFixed2
  rw [if_neg (not_lt.mpr h0), nearestCents_eq_of x n h1 h2]

theorem toFixed2_zero : toFixed2 0 = 0 := by
  have h := toFixed2_eq_of 0 0 le_rfl (by norm_num) (by norm_num)
  simpa using h

/-! ## The dictionary operations -/

theorem addItem_eq (ps : List Product) (acc : Acc) (item : LineItem) :
    addItem ps acc item = (resolve ps item).elim acc (addLine acc) := by
  unfold addItem resolve
  cases byId ps item.productId <;> rfl

theorem foldl_addItem (ps : List Product) (items : List LineItem) (acc : Acc) :
    items.foldl (addItem ps) acc = (items.filterMap (resolve ps)).foldl addLine acc := by
  induction items generalizing acc with
  | nil => rfl
  | cons item rest ih =>
    rw [List.foldl_cons, ih, addItem_eq]
    cases h : resolve ps item <;> simp [List.filterMap_cons, h]

theorem foldl_addOrder (ps : List Product) (os : List Order) (acc : Acc) :
    os.foldl (addOrder ps) acc = (resolvedLines ps os).foldl addLine acc := by
  induction os generalizing acc with
  | nil => rfl
  | cons o rest ih =>
    rw [List.foldl_cons, ih]
    simp [addOrder, foldl_addItem, resolvedLines, allItems, List.filterMap_append]

theorem reduceOrders_eq (ps : List Product) (os : List Order) :
    reduceOrders ps os = (resolvedLines ps os).foldl addLine base :=
  foldl_addOrder ps os base

theorem foldl_addLine_revenue (l : List (Product × LineItem)) (acc : Acc) :
    (l.foldl addLine acc).revenue = acc.revenue + (l.map lineValue).sum := by
  induction l generalizing acc with
  | nil => simp
  | cons x rest ih =>
    rw [List.foldl_cons, ih]
    simp [addLine, add_assoc]

theorem mem_resolvedLines (ps : List Product) (os : List Order) (x : Product × LineItem) :
    x ∈ resolvedLines ps os ↔
      ∃ o ∈ os, x.2 ∈ o.items ∧ byId ps x.2.productId = some x.1 := by
  obtain ⟨p, item⟩ := x
  simp only [resolvedLines, allItems, resolve, List.mem_filterMap, List.mem_flatMap,
    Option.map_eq_some']
  constructor
  · rintro ⟨it, ⟨o, ho, hit⟩, q, hq, heq⟩
    simp only [Prod.mk.injEq] at heq
    obtain ⟨rfl, rfl⟩ := heq
    exact ⟨o, ho, hit, hq⟩
  · rintro ⟨o, ho, hit, hq⟩
    exact ⟨item, ⟨o, ho, hit⟩, p, hq, rfl⟩

theorem computeTotals_congr (cfg : Config) (ps ps2 : List Product) (os os2 : List Order)
    (h : reduceOrders ps os = reduceOrders ps2 os2) :
    computeTotals cfg ps os = computeTotals cfg ps2 os2 := by
  unfold computeTotals
  rw [h]

theorem byId_sameButStock (ps1 ps2 : List Product) (h : List.Forall₂ sameButStock ps1 ps2)
    (id : Int) :
    (byId ps1 id = none ∧ byId ps2 id = none) ∨
      ∃ p q, byId ps1 id = some p ∧ byId ps2 id = some q ∧ sameButStock p q := by
  induction h with
  | nil => exact Or.inl ⟨rfl, rfl⟩
  | @cons p q l1 l2 hpq _ ih =>
    by_cases hid : p.id = id
    · have hq : q.id = id := hpq.1 ▸ hid
      exact Or.inr ⟨p, q, by simp [byId, hid], by simp [byId, hq], hpq⟩
    · have hq : ¬ q.id = id := hpq.1 ▸ hid
      have e1 : byId (p :: l1) id = byId l1 id := by simp [byId, hid]
      have e2 : byId (q :: l2) id = byId l2 id := by simp [byId, hq]
      rw [e1, e2]
      exact ih

theorem addItem_sameButStock (ps1 ps2 : List Product) (h : List.Forall₂ sameButStock ps1 ps2)
    (acc : Acc) (item : LineItem) : addItem ps1 acc item = addItem ps2 acc item := by
  rcases byId_sameButStock ps1 ps2 h item.productId with ⟨h1, h2⟩ | ⟨p, q, h1, h2, hpq⟩
  · simp [addItem, h1, h2]
  · obtain ⟨_, _, hc, hp⟩ := hpq
    simp [addItem, h1, h2, hc, hp]

theorem sameButStock_invert (ps : List Product) :
    List.Forall₂ sameButStock ps (ps.map invertStock) := by
  induction ps with
  | nil => exact List.Forall₂.nil
  | cons p rest ih => exact List.Forall₂.cons ⟨rfl, rfl, rfl, rfl⟩ ih

/-! ## The claims -/

/-- C3 as stated fails: on the sample data `computeTotals` does not return
units 12, revenue 1637.69, revenueWithTax 1965.23 and the category totals
Electronics 1613.99, Stationery 19.50, Lifestyle 24.00. -/
theorem computeTotals_sample_not_as_claimed :
    ¬ ((computeTotals config products orders).units = 12 ∧
       (computeTotals config products orders).revenue = 163769 / 100 ∧
       (computeTotals config products orders).revenueWithTax = 196523 / 100 ∧
       (computeTotals config products orders).totalsByCategory =
         [("Electronics", 161399 / 100), ("Stationery", 1950 / 100), ("Lifestyle", 24)]) := by
  rintro ⟨hu, -⟩
  have h14 : (computeTotals config products orders).units = 14 := by
    simp [computeTotals, reduceOrders, addOrder, addItem, byId, products, orders, orderA100,
      orderA101, orderA102, orderA103, base]
    norm_num
  rw [h14] at hu
  norm_num at hu

/-- C3, amended: on the six sample products, the four sample orders A100-A103
and taxRate 0.2, `computeTotals` returns units 14, revenue 1725.99,
revenueWithTax 2071.19 and the category totals Electronics 1682.49,
Stationery 19.50, Lifestyle 24.00 in this order. -/
theorem computeTotals_sample :
    computeTotals config products orders =
      { revenue := 172599 / 100, units := 14,
        totalsByCategory :=
          [("Electronics", 168249 / 100), ("Stationery", 1950 / 100), ("Lifestyle", 24)],
        revenueWithTax := 207119 / 100 } := by
  simp [computeTotals, reduceOrders, addOrder, addItem, byId, products, orders, orderA100,
    orderA101, orderA102, orderA103, base, setKey, getKey, orZero, config]
  norm_num
  rw [toFixed2_eq_of _ 172599 (by norm_num) (by norm_num) (by norm_num),
    toFixed2_eq_of _ 168249 (by norm_num) (by norm_num) (by norm_num),
    toFixed2_eq_of _ 1950 (by norm_num) (by norm_num) (by norm_num),
    toFixed2_eq_of _ 2400 (by norm_num) (by norm_num) (by norm_num)]
  norm_num
  rw [toFixed2_eq_of _ 207119 (by norm_num) (by norm_num) (by norm_num)]
  norm_num

/-- C4: on the six sample products and the single order A100,
`computeTotals` returns revenue 1578.99, units 2 and a `totalsByCategory`
with the single entry Electronics: 1578.99. -/
theorem computeTotals_A100 :
    (computeTotals config products [orderA100]).revenue = 157899 / 100 ∧
    (computeTotals config products [orderA100]).units = 2 ∧
    (computeTotals config products [orderA100]).totalsByCategory =
      [("Electronics", 157899 / 100)] := by
  simp [computeTotals, reduceOrders, addOrder, addItem, byId, products, orderA100, base, setKey,
    getKey, orZero]
  norm_num
  rw [toFixed2_eq_of _ 157899 (by norm_num) (by norm_num) (by norm_num)]
  norm_num

/-- C5: on the empty order list `computeTotals` returns revenue 0, units 0,
an empty `totalsByCategory` and revenueWithTax 0, for every product list and
every tax rate. -/
theorem computeTotals_nil (cfg : Config) (ps : List Product) :
    computeTotals cfg ps [] =
      { revenue := 0, units := 0, totalsByCategory := [], revenueWithTax := 0 } := by
  simp [computeTotals, reduceOrders, base, toFixed2_zero]

/-- C8: two product lists that differ only in the `inStock` flags of their
products give the same result of `computeTotals` on every order list. -/
theorem computeTotals_ignores_stock (cfg : Config) (ps1 ps2 : List Product) (os : List Order)
    (h : List.Forall₂ sameButStock ps1 ps2) :
    computeTotals cfg ps1 os = computeTotals cfg ps2 os := by
  apply computeTotals_congr
  have hitem : addItem ps1 = addItem ps2 := by
    funext acc item
    exact addItem_sameButStock ps1 ps2 h acc item
  have horder : addOrder ps1 = addOrder ps2 := by
    funext acc o
    simp [addOrder, hitem]
  simp [reduceOrders, horder]

/-- C8, at a concrete input: the sample products with every stock flag
inverted give the same totals on the sample orders. -/
theorem computeTotals_ignores_stock_witness :
    List.Forall₂ sameButStock products
        (products.map invertStock) ∧
    computeTotals config products orders =
      computeTotals config (products.map invertStock) orders :=
  ⟨sameButStock_invert products,
   computeTotals_ignores_stock config products
     (products.map invertStock) orders
     (sameButStock_invert products)⟩

/-- C9: `mapToCards` returns as many cards as there are products, and the
card at each position is built from the product at that position: same id,
title = name, same category and stock flag, badge "In Stock" or
"Out of Stock" according to the stock flag. -/
theorem mapToCards_pointwise (cfg : Config) (ps : List Product) :
    (mapToCards cfg ps).length = ps.length ∧
    List.Forall₂
      (fun p c =>
        c.id = p.id ∧ c.title = p.name ∧ c.category = p.category ∧ c.inStock = p.inStock ∧
          c.badge = if p.inStock = true then "In Stock" else "Out of Stock")
      ps (mapToCards cfg ps) := by
  constructor
  · simp [mapToCards]
  · induction ps with
    | nil => exact List.Forall₂.nil
    | cons p rest ih =>
      exact List.Forall₂.cons ⟨rfl, rfl, rfl, rfl, rfl⟩ ih

/-- C10: every card returned by `mapToCards` is highlighted if and only if
its category equals the configured highlight category character for
character. -/
theorem mapToCards_isHighlighted_iff (cfg : Config) (ps : List Product) (c : Card)
    (hc : c ∈ mapToCards cfg ps) :
    c.isHighlighted = true ↔ c.category = cfg.highlightCategory := by
  obtain ⟨p, -, rfl⟩ := List.mem_map.mp hc
  simp [toCard]

/-- C10, at a concrete input: with highlight category "Electronics" a card
of category "electronics" is produced and is not highlighted. -/
theorem mapToCards_isHighlighted_iff_witness :
    toCard config ⟨7, "Cable", "electronics", 3, true⟩ ∈
        mapToCards config [⟨7, "Cable", "electronics", 3, true⟩] ∧
    ((toCard config ⟨7, "Cable", "electronics", 3, true⟩).isHighlighted = true ↔
      (toCard config ⟨7, "Cable", "electronics", 3, true⟩).category =
        config.highlightCategory) ∧
    (toCard config ⟨7, "Cable", "electronics", 3, true⟩).isHighlighted = false :=
  ⟨by simp [mapToCards],
   mapToCards_isHighlighted_iff config [⟨7, "Cable", "electronics", 3, true⟩] _
     (by simp [mapToCards]),
   by simp [toCard, config]⟩

/-! ## `filterCards` -/

theorem trim_eq_empty (s : String) (h : ∀ ch ∈ s.data, isWhiteSpace ch = true) : trim s = "" := by
  have h1 : s.data.dropWhile isWhiteSpace = [] := List.dropWhile_eq_nil_iff.mpr h
  simp [trim, h1]

theorem filterCards_eq (toLowerCase : String → String) (cards : List Card) (query : String)
    (showOutOfStock : Bool) :
    filterCards toLowerCase cards (some { query := some query, showOutOfStock := some showOutOfStock }) =
      (cards.filter (stockPredicate showOutOfStock)).filter
        (queryPredicate toLowerCase (toLowerCase (trim query))) := rfl

theorem queryPredicate_empty (toLowerCase : String → String) (c : Card) :
    queryPredicate toLowerCase "" c = true := by
  simp [queryPredicate]

theorem filterCards_mapToCards_titles (toLowerCase : String → String) (cfg : Config)
    (ps : List Product) (query : String) (showOutOfStock : Bool) :
    (filterCards toLowerCase (mapToCards cfg ps)
        (some { query := some query, showOutOfStock := some showOutOfStock })).map
      (fun c => c.title) =
      (ps.filter (fun p =>
        (if showOutOfStock then true else p.inStock) &&
          (if toLowerCase (trim query) ≠ "" then
            includes (toLowerCase p.name) (toLowerCase (trim query)) ||
              includes (toLowerCase p.category) (toLowerCase (trim query))
           else true))).map (fun p => p.name) := by
  rw [filterCards_eq, mapToCards, List.filter_map, List.filter_map, List.map_map,
    List.filter_filter]
  congr 1
  apply List.filter_congr
  intro p _
  simp only [Function.comp_def, stockPredicate, queryPredicate, toCard, Bool.and_comm]

/-- C11: the list returned by `filterCards` is a sublist of the input list:
the kept cards are input cards, unmodified, in their input order. -/
theorem filterCards_sublist (toLowerCase : String → String) (cards : List Card)
    (options : Option FilterOptions) :
    List.Sublist (filterCards toLowerCase cards options) cards := by
  unfold filterCards
  exact (List.filter_sublist _).trans (List.filter_sublist _)

/-- C12: with `q` the trimmed and lower-cased query, `filterCards` keeps
exactly the input cards for which (showOutOfStock or the card is in stock)
and (`q` is empty or the lower-cased title contains `q` or the lower-cased
category contains `q`); with showOutOfStock false, every card of the output
is in stock. -/
theorem filterCards_keeps_iff (toLowerCase : String → String) (cards : List Card)
    (query : String) (showOutOfStock : Bool) :
    filterCards toLowerCase cards
        (some { query := some query, showOutOfStock := some showOutOfStock }) =
      cards.filter (keptBySpec toLowerCase query showOutOfStock) ∧
    ∀ c ∈ filterCards toLowerCase cards (some { query := some query, showOutOfStock := some false }),
      c.inStock = true := by
  constructor
  · rw [filterCards_eq, List.filter_filter]
    apply List.filter_congr
    intro c _
    by_cases hq : toLowerCase (trim query) = ""
    · cases showOutOfStock <;> cases hs : c.inStock <;>
        simp [keptBySpec, stockPredicate, queryPredicate, hq, hs]
    · cases showOutOfStock <;> cases hs : c.inStock <;>
        simp [keptBySpec, stockPredicate, queryPredicate, hq, hs]
  · intro c hc
    rw [filterCards_eq] at hc
    have h1 := (List.mem_filter.mp (List.mem_filter.mp hc).1).2
    simpa [stockPredicate] using h1

/-- C12, at a concrete input: the in-stock card is kept when out-of-stock
cards are hidden. -/
theorem filterCards_keeps_iff_witness :
    penCard ∈ filterCards asciiToLowerCase [mouseCard, penCard]
        (some { query := some "pen", showOutOfStock := some false }) ∧
    penCard.inStock = true :=
  ⟨by simp [filterCards, stockPredicate, queryPredicate, penCard, mouseCard, trim, includes,
        asciiToLowerCase, isWhiteSpace]; decide,
   (filterCards_keeps_iff asciiToLowerCase [mouseCard, penCard] "pen" false).2 penCard
     (by simp [filterCards, stockPredicate, queryPredicate, penCard, mouseCard, trim, includes,
        asciiToLowerCase, isWhiteSpace]; decide)⟩

/-- C13: for a query that is empty or made of white space only, `filterCards`
returns the input list when showOutOfStock is true, and the in-stock cards in
input order when showOutOfStock is false or absent, or when the options are
omitted altogether. -/
theorem filterCards_blank_query (toLowerCase : String → String) (hl : toLowerCase "" = "")
    (cards : List Card) (query : String) (hq : ∀ ch ∈ query.data, isWhiteSpace ch = true) :
    filterCards toLowerCase cards (some { query := some query, showOutOfStock := some true }) =
      cards ∧
    filterCards toLowerCase cards (some { query := some query, showOutOfStock := some false }) =
      cards.filter (fun c => c.inStock) ∧
    filterCards toLowerCase cards (some { query := some query, showOutOfStock := none }) =
      cards.filter (fun c => c.inStock) ∧
    filterCards toLowerCase cards (some { query := none, showOutOfStock := none }) =
      cards.filter (fun c => c.inStock) ∧
    filterCards toLowerCase cards none = cards.filter (fun c => c.inStock) := by
  have ht : toLowerCase (trim query) = "" := by rw [trim_eq_empty query hq, hl]
  have he : toLowerCase (trim "") = "" := by
    rw [trim_eq_empty "" (by simp), hl]
  have hall : ∀ l : List Card, l.filter (queryPredicate toLowerCase "") = l := by
    intro l
    exact List.filter_eq_self.mpr (fun c _ => queryPredicate_empty toLowerCase c)
  have hstock : stockPredicate false = fun c => c.inStock := by
    funext c
    simp [stockPredicate]
  refine ⟨?_, ?_, ?_, ?_, ?_⟩
  · rw [filterCards_eq, ht, hall]
    exact List.filter_eq_self.mpr (fun c _ => by simp [stockPredicate])
  · rw [filterCards_eq, ht, hall, hstock]
  · simp only [filterCards, Option.getD_some, Option.getD_none, ht, hall, hstock]
  · simp only [filterCards, Option.getD_some, Option.getD_none, he, hall, hstock]
  · simp only [filterCards, Option.getD_none, he, hall, hstock]

/-- C13, at a concrete input: the query made of a blank, a tab and a
no-break space keeps both cards when out-of-stock cards are shown. -/
theorem filterCards_blank_query_witness :
    asciiToLowerCase "" = "" ∧
    (∀ ch ∈ (" \t\u00a0" : String).data, isWhiteSpace ch = true) ∧
    filterCards asciiToLowerCase [mouseCard, penCard]
        (some { query := some " \t\u00a0", showOutOfStock := some true }) =
      [mouseCard, penCard] :=
  ⟨rfl, by decide,
   (filterCards_blank_query asciiToLowerCase rfl [mouseCard, penCard] " \t\u00a0"
     (by decide)).1⟩

/-- C14: on the cards of the six sample products, `filterCards` with query
"electronics" and showOutOfStock false returns exactly two cards, titled
"Laptop Pro 15" and "Mechanical Keyboard" in this order, and no card titled
"Wireless Mouse". -/
theorem filterCards_sample :
    (filterCards asciiToLowerCase (mapToCards config products)
        (some { query := some "electronics", showOutOfStock := some config.showOutOfStock })).map
      (fun c => c.title) = ["Laptop Pro 15", "Mechanical Keyboard"] ∧
    (filterCards asciiToLowerCase (mapToCards config products)
        (some { query := some "electronics",
                showOutOfStock := some config.showOutOfStock })).length = 2 ∧
    "Wireless Mouse" ∉
      (filterCards asciiToLowerCase (mapToCards config products)
        (some { query := some "electronics", showOutOfStock := some config.showOutOfStock })).map
        (fun c => c.title) := by
  have h : (filterCards asciiToLowerCase (mapToCards config products)
        (some { query := some "electronics", showOutOfStock := some config.showOutOfStock })).map
      (fun c => c.title) = ["Laptop Pro 15", "Mechanical Keyboard"] := by
    rw [filterCards_mapToCards_titles]
    decide
  refine ⟨h, ?_, ?_⟩
  · have hlen := congrArg List.length h
    simpa using hlen
  · rw [h]
    decide

/-- C19: `filterCards` is idempotent: filtering its own output again with the
same options changes nothing. -/
theorem filterCards_idempotent (toLowerCase : String → String) (cards : List Card)
    (options : Option FilterOptions) :
    filterCards toLowerCase (filterCards toLowerCase cards options) options =
      filterCards toLowerCase cards options := by
  unfold filterCards
  simp only [List.filter_filter]
  apply List.filter_congr
  intro c _
  cases stockPredicate ((options.getD { query := none, showOutOfStock := none }).showOutOfStock.getD false) c <;>
    cases queryPredicate toLowerCase
      (toLowerCase (trim ((options.getD { query := none, showOutOfStock := none }).query.getD ""))) c <;>
    rfl

/-! ## `renderReport` -/

theorem nearestCents_cents (n : Int) : nearestCents ((n : ℚ) / 100) = n := by
  apply nearestCents_eq_of
  · have h : (n : ℚ) / 100 * 100 = n := by field_simp
    rw [h]
    linarith
  · have h : (n : ℚ) / 100 * 100 = n := by field_simp
    rw [h]
    linarith

theorem toFixed2_cents (n : Int) : toFixed2 ((n : ℚ) / 100) = (n : ℚ) / 100 := by
  unfold toFixed2
  by_cases h : (n : ℚ) / 100 < 0
  · rw [if_pos h]
    have h2 : -((n : ℚ) / 100) = ((-n : Int) : ℚ) / 100 := by push_cast; ring
    rw [h2, nearestCents_cents]
    push_cast
    ring
  · rw [if_neg h, nearestCents_cents]

theorem toFixed2_of_isCents (x : ℚ) (h : isCents x) : toFixed2 x = x := by
  obtain ⟨n, rfl⟩ := h
  exact toFixed2_cents n

theorem isCents_toFixed2 (x : ℚ) : isCents (toFixed2 x) := by
  unfold toFixed2
  by_cases h : x < 0
  · rw [if_pos h]
    exact ⟨-nearestCents (-x), by push_cast; ring⟩
  · rw [if_neg h]
    exact ⟨nearestCents x, rfl⟩

theorem toFixed2_nonneg (x : ℚ) (h : 0 ≤ x) : 0 ≤ toFixed2 x := by
  unfold toFixed2
  rw [if_neg (not_lt.mpr h)]
  have h1 : (0 : Int) ≤ nearestCents x := by
    unfold nearestCents
    exact Int.floor_nonneg.mpr (by positivity)
  have h2 : (0 : ℚ) ≤ (nearestCents x : ℚ) := by exact_mod_cast h1
  positivity

theorem toFixed2_le_toFixed2 (x y : ℚ) (hx : 0 ≤ x) (hxy : x ≤ y) :
    toFixed2 x ≤ toFixed2 y := by
  unfold toFixed2
  rw [if_neg (not_lt.mpr hx), if_neg (not_lt.mpr (hx.trans hxy))]
  have h1 : nearestCents x ≤ nearestCents y := by
    unfold nearestCents
    exact Int.floor_mono (by linarith)
  have h2 : (nearestCents x : ℚ) ≤ (nearestCents y : ℚ) := by exact_mod_cast h1
  linarith

theorem mem_of_byId (ps : List Product) (id : Int) (p : Product) (h : byId ps id = some p) :
    p ∈ ps := List.mem_of_find?_eq_some h

theorem resolvedLines_product_mem (ps : List Product) (os : List Order) (x : Product × LineItem)
    (hx : x ∈ resolvedLines ps os) : x.1 ∈ ps ∧ ∃ o ∈ os, x.2 ∈ o.items := by
  obtain ⟨o, ho, hitem, hp⟩ := (mem_resolvedLines ps os x).mp hx
  exact ⟨mem_of_byId ps _ _ hp, o, ho, hitem⟩

theorem computeTotals_revenue (cfg : Config) (ps : List Product) (os : List Order) :
    (computeTotals cfg ps os).revenue = toFixed2 ((resolvedLines ps os).map lineValue).sum := by
  simp [computeTotals, reduceOrders_eq, foldl_addLine_revenue, base]

/-- C18: with non-negative prices, non-negative quantities and a tax rate of
at least 0, the revenue returned by `computeTotals` is at least 0 and the
revenueWithTax is at least the revenue. -/
theorem revenue_nonneg_le_withTax (cfg : Config) (ps : List Product) (os : List Order)
    (hp : ∀ p ∈ ps, 0 ≤ p.price) (hq : ∀ o ∈ os, ∀ item ∈ o.items, 0 ≤ item.qty)
    (ht : 0 ≤ cfg.taxRate) :
    0 ≤ (computeTotals cfg ps os).revenue ∧
    (computeTotals cfg ps os).revenue ≤ (computeTotals cfg ps os).revenueWithTax := by
  have hsum : 0 ≤ ((resolvedLines ps os).map lineValue).sum := by
    apply List.sum_nonneg
    intro y hy
    obtain ⟨x, hx, rfl⟩ := List.mem_map.mp hy
    obtain ⟨hmem, o, ho, hitem⟩ := resolvedLines_product_mem ps os x hx
    exact mul_nonneg (hp _ hmem) (hq o ho _ hitem)
  have hrev : 0 ≤ (computeTotals cfg ps os).revenue := by
    rw [computeTotals_revenue]
    exact toFixed2_nonneg _ hsum
  refine ⟨hrev, ?_⟩
  have htax : (computeTotals cfg ps os).revenueWithTax =
      toFixed2 ((computeTotals cfg ps os).revenue * (1 + cfg.taxRate)) := rfl
  have hfix : toFixed2 (computeTotals cfg ps os).revenue = (computeTotals cfg ps os).revenue := by
    rw [computeTotals_revenue]
    exact toFixed2_of_isCents _ (isCents_toFixed2 _)
  rw [htax]
  calc (computeTotals cfg ps os).revenue
      = toFixed2 (computeTotals cfg ps os).revenue := hfix.symm
    _ ≤ toFixed2 ((computeTotals cfg ps os).revenue * (1 + cfg.taxRate)) := by
        apply toFixed2_le_toFixed2 _ _ hrev
        nlinarith

/-- C18, at a concrete input: the sample data at the sample tax rate 0.2. -/
theorem revenue_nonneg_le_withTax_witness :
    (∀ p ∈ products, 0 ≤ p.price) ∧
    (∀ o ∈ orders, ∀ item ∈ o.items, 0 ≤ item.qty) ∧
    0 ≤ config.taxRate ∧
    0 ≤ (computeTotals config products orders).revenue ∧
    (computeTotals config products orders).revenue ≤
      (computeTotals config products orders).revenueWithTax :=
  ⟨by simp [products]; norm_num,
   by simp [orders, orderA100, orderA101, orderA102, orderA103],
   by simp [config]; norm_num,
   revenue_nonneg_le_withTax config products orders
     (by simp [products]; norm_num)
     (by simp [orders, orderA100, orderA101, orderA102, orderA103])
     (by simp [config]; norm_num)⟩

/-! ## Reordering -/

end MiniStore
